import Mathlib

/-!
Shallow embedding of the B-tree repository (btree.py together with the node
class of btreenode.py) and proofs about it.

Modelling conventions:
* `BTreeNode α` mirrors class `BTreeNode`: the stored key list `_keys`, the
  stored child list `_children` and the stored flag `_is_leaf`.  The key type
  is a parameter: `Int` is used for the main model (keys are comparable
  values), `Option Int` is used where a Python `None` key must be modelled.
* A load-bearing fact of the frozen source: `BTreeNode.is_leaf`
  (btreenode.py line 53) is a plain method, NOT a `@property`, while
  btree.py reads it as a bare attribute (`if node.is_leaf:` at lines 115
  and 159, `is_leaf=child.is_leaf` at line 185, `if not child.is_leaf:` at
  line 191).  A bare attribute read of a method is a bound-method object
  and always truthy, so in the program as it runs: `_search` never recurses
  into children, `_insert_non_full` always takes its leaf branch (inserting
  the key into the node it is called on, never descending), and
  `_split_child` never transfers children and stores the truthy method
  object as the new sibling's flag.  The definitions below model exactly
  this behaviour; the branches this makes dead are noted in the doc
  comments.  Only `BTreeNode.in_order` (btreenode.py line 131), which CALLS
  `is_leaf()`, reads the stored flag — under a truthiness test, which is
  how the flag is modelled.
* Python list primitives (indexing with negative indices, `list.insert`) are
  modelled exactly, including the clamping behaviour of `list.insert` and the
  wrap-around of negative indices; the places where CPython raises are
  modelled with `Except`/`Option` where a claim depends on them.
* The mutating methods of class `BTree` are modelled as functions from the
  old node to the new node.  With the dead branches above, insertion and
  search are non-recursive; only `in_order` recurses, and it takes a fuel
  argument bounding its recursion depth.
-/

/-- Embedding of class `BTreeNode` (btreenode.py, lines 5-15): stored key
list, stored child list, stored leaf flag. -/
inductive BTreeNode (α : Type) : Type where
  | mk : List α → List (BTreeNode α) → Bool → BTreeNode α

instance : Inhabited (BTreeNode α) := ⟨.mk [] [] true⟩

/-- Getter `keys` (btreenode.py line 17); the Python property returns a copy,
which is the identity on values. -/
@[simp] def BTreeNode.keys : BTreeNode α → List α
  | .mk ks _ _ => ks

/-- Getter `children` (btreenode.py line 26). -/
@[simp] def BTreeNode.children : BTreeNode α → List (BTreeNode α)
  | .mk _ cs _ => cs

/-- The stored `_is_leaf` attribute.  In btreenode.py `is_leaf` is a plain
method (line 53, no `@property`), so btree.py's bare attribute reads
`node.is_leaf` evaluate to a bound-method object — always truthy — and
never consult this stored value; only `BTreeNode.in_order`, which calls
`is_leaf()`, reads it.  The stored value can be `True`, `False` or (for
split-created siblings) the truthy bound-method object; it is modelled by
its truthiness, the only aspect the program ever observes of it. -/
@[simp] def BTreeNode.is_leaf : BTreeNode α → Bool
  | .mk _ _ b => b

/-- Property `n_keys` (btreenode.py line 35): `len(self._keys)`. -/
@[simp] def BTreeNode.n_keys (nd : BTreeNode α) : Nat := nd.keys.length

/-- Property `n_children` (btreenode.py line 44): `len(self._children)`. -/
@[simp] def BTreeNode.n_children (nd : BTreeNode α) : Nat := nd.children.length

/-- The position a Python indexing expression `xs[i]` reads on a list of
length `n`: a negative `i` counts from the end.  (For `i < -n` or `i >= n`
CPython raises `IndexError`; callers model that case separately.) -/
def pyIdx (n : Nat) (i : Int) : Nat := if i < 0 then (n + i).toNat else i.toNat

/-- Python `xs[i]` with a default for the out-of-range case (the in-range
cases, including negative indices, are exact; every use in the insertion and
search model is at an in-range index on the inputs of the theorems below). -/
def pyGetD (xs : List α) (i : Int) (d : α) : α := xs.getD (pyIdx xs.length i) d

/-- Python `xs[i]` with the exact CPython error behaviour: negative indices
count from the end, and `IndexError` is raised iff `i < -len(xs)` or
`i >= len(xs)`. -/
def pyGetE (xs : List α) (i : Int) : Except String α :=
  match xs[pyIdx xs.length i]? with
  | some x => if i < -(xs.length : Int) then .error "list index out of range" else .ok x
  | none => .error "list index out of range"

/-- Insert `x` into a list before position `p` (appending when `p` exceeds
the length), as `List.insertIdx` does; written out so that its equations are
definitional. -/
def listIns : Nat → α → List α → List α
  | 0, x, xs => x :: xs
  | _ + 1, x, [] => [x]
  | p + 1, x, y :: ys => y :: listIns p x ys

/-- The position at which Python `xs.insert(i, x)` places `x` on a list of
length `n`: negative `i` counts from the end and is clamped to `0`,
non-negative `i` is clamped to `n`. -/
def pyInsertIdx (n : Nat) (i : Int) : Nat :=
  if i < 0 then (n + i).toNat else min i.toNat n

/-- Python `xs.insert(i, x)` (never raises for any integer `i`). -/
def pyInsert (xs : List α) (i : Int) (x : α) : List α :=
  listIns (pyInsertIdx xs.length i) x xs

/-- `BTreeNode.get_key` (btreenode.py line 56): `self._keys[i]`, default in
place of the `IndexError` case (see `get_keyE` for the exact error model). -/
def get_key (nd : BTreeNode Int) (i : Int) : Int := pyGetD nd.keys i 0

/-- `BTreeNode.get_child` (btreenode.py line 70): `self._children[i]`,
default in place of the `IndexError` case. -/
def get_child (nd : BTreeNode α) (i : Int) : BTreeNode α :=
  pyGetD nd.children i (.mk [] [] true)

/-- `BTreeNode.get_key` with the exact CPython indexing/error semantics. -/
def get_keyE (nd : BTreeNode α) (i : Int) : Except String α := pyGetE nd.keys i

/-- `BTreeNode.get_child` with the exact CPython indexing/error semantics. -/
def get_childE (nd : BTreeNode α) (i : Int) : Except String (BTreeNode α) :=
  pyGetE nd.children i

/-- `BTreeNode.insert_key` (btreenode.py line 84) restricted to non-null keys
(the `TypeError` branch for a null key is modelled exactly by `insert_keyE`
below; in the `Int`-keyed model a key is never null). -/
def insert_key (nd : BTreeNode Int) (key : Int) (i : Int) : BTreeNode Int :=
  .mk (pyInsert nd.keys i key) nd.children nd.is_leaf

/-- `BTree.max_keys` (btree.py line 45): `2*t - 1`. -/
def max_keys (t : Nat) : Nat := 2 * t - 1

/-- `BTree.is_full` (btree.py line 56): `node.n_keys == self.max_keys`. -/
def is_full (t : Nat) (nd : BTreeNode α) : Bool := nd.n_keys == max_keys t

/-- `BTree._split_child` (btree.py lines 175-193), as a function from the
old parent to the new parent, with the source's actual runtime semantics.
Because `is_leaf` is a method and not a property:
* line 185 `BTreeNode(is_leaf=child.is_leaf)` stores the truthy
  bound-method object as the new sibling's `_is_leaf` (modelled by its
  truthiness, `true`), NOT the child's stored flag;
* line 191 `if not child.is_leaf:` is always false, so the children are
  NEVER transferred: the truncated child keeps its entire child list and
  the new sibling gets none.
The key movement is live and exact: the sibling is inserted at child
position `i+1`, the median `child.get_key(t-1)` is inserted into the
parent's keys at position `i`, the sibling receives the keys from `t` on
and the child keeps the first `t-1`.  Mutation of the child object in place
is modelled by `List.set` at the child's position. -/
def split_child [Inhabited α] (t : Nat) (nd : BTreeNode α) (i : Int) : BTreeNode α :=
  let child := get_child nd i
  let newChild : BTreeNode α := .mk (child.keys.drop t) [] true
  let left : BTreeNode α := .mk (child.keys.take (t - 1)) child.children child.is_leaf
  .mk (pyInsert nd.keys i (pyGetD child.keys ((t : Int) - 1) default))
    (listIns (pyInsertIdx nd.n_children (i + 1)) newChild
      (nd.children.set (pyIdx nd.n_children i) left))
    nd.is_leaf

/-- The index scan at the top of `BTree._insert_non_full` (btree.py lines
152-156): `i = node.n_keys; while i >= 0 and node.get_key(i - 1) > key: i -= 1`.
The counter is the current value of `i`; the scan can terminate with `i = -1`,
and at `i = 0` the guard reads `get_key(-1)`, which by Python negative
indexing is the LAST key of the node. -/
def insertScanGo (nd : BTreeNode Int) (key : Int) : Nat → Int
  | 0 => if get_key nd (-1) > key then -1 else 0
  | j + 1 => if get_key nd (j : Int) > key then insertScanGo nd key j else ((j : Int) + 1)

/-- The value of `i` after the scan loop of `BTree._insert_non_full`. -/
def insertScan (nd : BTreeNode Int) (key : Int) : Int :=
  insertScanGo nd key nd.n_keys

/-- `BTree._insert_non_full` (btree.py lines 145-173) with the source's
actual runtime semantics: the guard `if node.is_leaf:` (line 159) reads a
bound method — always truthy — so the leaf branch is taken for EVERY node:
the key is inserted directly into `node` at the scanned index, and the
descend-and-split code at lines 163-173 is dead.  (With a non-null key the
only way this code can raise is `get_key(-1)` on a node with no keys, which
no call reachable from `insert` produces; `pyGetD` returns a default
there.) -/
def insert_non_full (nd : BTreeNode Int) (key : Int) : BTreeNode Int :=
  insert_key nd key (insertScan nd key)

/-- `BTree.insert` (btree.py lines 123-143) acting on the optional root
(`None` root = empty tree).  On an empty tree a single-key leaf root is
created.  On a full root, a new empty internal root is created with the old
root as sole child (`new_root.insert_child(self._root)` appends to an empty
child list), the old root is split at child index 0, and then — because
`_insert_non_full` always takes its leaf branch — the key is inserted
directly into the new root's key list.  Otherwise the key is inserted
directly into the root. -/
def insertT (t : Nat) (root : Option (BTreeNode Int)) (key : Int) : BTreeNode Int :=
  match root with
  | none => .mk [key] [] true
  | some r =>
    if is_full t r then
      insert_non_full (split_child t (.mk [] [r] false) 0) key
    else
      insert_non_full r key

/-- The tree obtained from a fresh `BTree(t)` by inserting the listed keys
in order (`none` = the empty tree, no keys inserted). -/
def buildRoot (t : Nat) (ks : List Int) : Option (BTreeNode Int) :=
  ks.foldl (fun r k => some (insertT t r k)) none

/-- The scan at the top of `BTree._search` (btree.py lines 104-106):
`i = 0; while i < node.n_keys and key > node.get_key(i): i += 1`, i.e. the
length of the maximal prefix of the key list whose entries are `< key`. -/
def searchScan (nd : BTreeNode Int) (key : Int) : Nat :=
  (nd.keys.takeWhile fun x => decide (x < key)).length

/-- `BTree._search` (btree.py lines 84-121) with the source's actual runtime
semantics: the guard `if node.is_leaf:` (line 115) is an always-truthy
bound method, so after scanning the current node's keys the function either
returns a hit in THIS node or reports not-found — the recursion into
`node.get_child(i)` at line 121 is dead and the search never leaves the
node it is given.  (The `ValueError` branch for a null key or node is
unreachable in the `Int` model, and no other raise is possible: `get_key`
is only read under the `i < n_keys` guard.) -/
def search (key : Int) (nd : BTreeNode Int) : Option (BTreeNode Int × Nat) :=
  let i := searchScan nd key
  if i < nd.n_keys ∧ key = get_key nd (i : Int) then some (nd, i) else none

/-- `BTree.search` (btree.py lines 67-82): `None` on the empty tree,
otherwise `_search` from the root (which, see `search`, only ever inspects
the root node). -/
def searchRoot (root : Option (BTreeNode Int)) (key : Int) :
    Option (BTreeNode Int × Nat) :=
  match root with
  | none => none
  | some r => search key r

mutual
/-- `BTreeNode.in_order` (btreenode.py lines 122-136), collecting the visited
keys in visit order: for each key index `i`, first (if not a leaf) the
traversal of `children[i]`, then `keys[i]`; after the loop (if not a leaf)
the traversal of `children[-1]` (the LAST child).  `none` models a raised
`IndexError` (missing `children[i]` or empty child list on an internal node)
or fuel exhaustion. -/
def inOrderNode : Nat → BTreeNode Int → Option (List Int)
  | 0, _ => none
  | fuel + 1, nd =>
    if nd.is_leaf then some nd.keys
    else
      match inOrderZip fuel nd.children nd.keys, nd.children.getLast? with
      | some body, some last =>
        match inOrderNode fuel last with
        | some tail => some (body ++ tail)
        | none => none
      | _, _ => none
termination_by fuel _ => (fuel, 0)

/-- The `for i, value in enumerate(self._keys)` loop of `BTreeNode.in_order`
on an internal node: walks the keys, pairing key `i` with child `i`;
`none` when the child list is exhausted before the keys (Python
`IndexError`). -/
def inOrderZip : Nat → List (BTreeNode Int) → List Int → Option (List Int)
  | _, _, [] => some []
  | _, [], _ :: _ => none
  | fuel, c :: cs, k :: ks =>
    match inOrderNode fuel c, inOrderZip fuel cs ks with
    | some xs, some rest => some (xs ++ k :: rest)
    | _, _ => none
termination_by fuel _ ks => (fuel, ks.length + 1)
end

/-! The checked model over `Option Int` keys: used where a Python `None` key
and the exact raise/mutation order matter (claims about `insert(None)` and
the container primitives). -/

/-- Python `a < b` on possibly-null values. -/
def pyLT : Option Int → Option Int → Except String Bool
  | some a, some b => .ok (a < b)
  | _, _ => .error "TypeError: unorderable types"

/-- `BTreeNode.insert_key` (btreenode.py lines 84-101) with the explicit
null check: `TypeError` iff the key is `None`, otherwise
`self._keys.insert(i, key)` (clamping, never an index error). -/
def insert_keyE (nd : BTreeNode (Option Int)) (key : Option Int) (i : Int) :
    Except String (BTreeNode (Option Int)) :=
  match key with
  | none => .error "TypeError: key parameter must not be None"
  | some _ => .ok (.mk (pyInsert nd.keys i key) nd.children nd.is_leaf)

/-- `BTreeNode.insert_child` (btreenode.py lines 103-120) with the explicit
null check: `TypeError` iff the child is `None`, otherwise
`self._children.insert(i, child)`. -/
def insert_childE (nd : BTreeNode (Option Int)) (child : Option (BTreeNode (Option Int)))
    (i : Int) : Except String (BTreeNode (Option Int)) :=
  match child with
  | none => .error "TypeError: child parameter must not be None"
  | some c => .ok (.mk nd.keys (pyInsert nd.children i c) nd.is_leaf)

/-- `LeafDepth nd d`: some leaf — a node with no children — lies at depth
`d` below `nd`. -/
inductive LeafDepth : BTreeNode Int → Nat → Prop where
  | leaf (nd : BTreeNode Int) : nd.children = [] → LeafDepth nd 0
  | child (nd c : BTreeNode Int) (d : Nat) :
      c ∈ nd.children → LeafDepth c d → LeafDepth nd (d + 1)

/-! Basic lemmas about the Python list-operation models. -/

/-- C1: the claim "for every tree built by insert calls, search(k) finds
every inserted k, and returns not-found without error for keys never
inserted" FAILS on the code: with t = 2, inserting 5, then 7, then 3 runs
the scan loop of `_insert_non_full` down to `i = -1` (the guard
`get_key(-1)` reads the LAST key by Python negative indexing), so
`insert_key(3, -1)` places 3 before the last element, leaving the single
leaf `[5, 3, 7]`; `search(3)` then stops at the first key `5` (not `> 3`),
finds no match, and reports not-found although 3 was inserted.  On this
input the whole run stays inside the single leaf root, where the
always-truthy `is_leaf` branch coincides with the intended leaf branch. -/
theorem c1_search_misses_inserted_key :
    buildRoot 2 [5, 7, 3] = some (.mk [5, 3, 7] [] true) ∧
    searchRoot (some (.mk [5, 3, 7] [] true)) 3 = none :=
  ⟨rfl, rfl⟩

/-- C2: the claim "the in-order traversal after any insertion sequence
yields the inserted keys in non-decreasing order" FAILS on the code: with
t = 2, inserting 5, then 7, then 3 yields the single leaf `[5, 3, 7]`
(see `c1`), whose in-order traversal (`in_order` calls `is_leaf()` and gets
the genuine `True` of this root) visits 5, 3, 7 — the inserted keys, but
not in non-decreasing order. -/
theorem c2_inorder_not_sorted :
    buildRoot 2 [5, 7, 3] = some (.mk [5, 3, 7] [] true) ∧
    inOrderNode 2 (.mk [5, 3, 7] [] true) = some [5, 3, 7] ∧
    ¬ List.Sorted (· ≤ ·) ([5, 3, 7] : List Int) :=
  ⟨rfl, by simp [inOrderNode], by decide⟩

/-- C3: the claimed tree (root `[11]`, the classical B-tree below) is what
the spec and the repository's own `test_insert` expect, but the code
produces something else: because `node.is_leaf` is an always-truthy bound
method, every insert lands in the current root and `_split_child` never
moves children, so the ten insertions at t = 2 really yield root keys
`[18, 23]` over a degenerate left spine.  Kernel-checked evaluation of the
faithful model. -/
theorem c3_actual_tree_diverges :
    buildRoot 2 [8, 9, 10, 11, 15, 16, 17, 18, 20, 23] =
      some (.mk [18, 23]
        [ .mk [16]
            [ .mk [11]
                [ .mk [9] [.mk [8] [] true, .mk [10] [] true] false,
                  .mk [15] [] true ] false,
              .mk [17] [] true ] false,
          .mk [20] [] true ]
        false) ∧
    ([18, 23] : List Int) ≠ [11] :=
  ⟨rfl, by decide⟩

/-- C4: splitting a full INTERNAL child shows the claim's flag clause fail
on the code: `BTreeNode(is_leaf=child.is_leaf)` (btree.py line 185) stores
the truthy bound-method object — truthiness `true` — as the new sibling's
flag, while the child's stored flag is `False`; and since
`if not child.is_leaf:` (line 191) never fires, the truncated child keeps
all four of its children and the sibling gets none.  The key movement
(median `2` promoted to parent position 0, child keeps `[1]`, sibling gets
`[3]`) is as claimed; the flags differ. -/
theorem c4_split_sibling_flag_mismatch :
    split_child 2
      (.mk [10]
        [ .mk [1, 2, 3]
            [.mk [0] [] true, .mk [4] [] true, .mk [5] [] true, .mk [6] [] true] false,
          .mk [11] [] true ] false) 0 =
      .mk [2, 10]
        [ .mk [1]
            [.mk [0] [] true, .mk [4] [] true, .mk [5] [] true, .mk [6] [] true] false,
          .mk [3] [] true,
          .mk [11] [] true ] false ∧
    (BTreeNode.mk ([3] : List Int) [] true).is_leaf ≠
      (BTreeNode.mk ([1, 2, 3] : List Int)
        [.mk [0] [] true, .mk [4] [] true, .mk [5] [] true, .mk [6] [] true]
        false).is_leaf :=
  ⟨rfl, by decide⟩

/-- C5: the claim "after any insertion sequence every leaf is at the same
depth" FAILS on the code: with t = 2, inserting 8, 9, 10, 11, 15, 16 gives
a root `[11, 16]` whose right child `[15]` is childless at depth 1 while
`[8]` and `[10]` are childless at depth 2 — the split strands the old
grandchildren in the left half and the new sibling never receives
children. -/
theorem c5_unbalanced_leaves :
    buildRoot 2 [8, 9, 10, 11, 15, 16] =
      some (.mk [11, 16]
        [ .mk [9] [.mk [8] [] true, .mk [10] [] true] false,
          .mk [15] [] true ] false) ∧
    LeafDepth (.mk [11, 16]
        [ .mk [9] [.mk [8] [] true, .mk [10] [] true] false,
          .mk [15] [] true ] false) 1 ∧
    LeafDepth (.mk [11, 16]
        [ .mk [9] [.mk [8] [] true, .mk [10] [] true] false,
          .mk [15] [] true ] false) 2 ∧
    (1 : Nat) ≠ 2 := by
  refine ⟨rfl, ?_, ?_, by decide⟩
  · exact LeafDepth.child _ (.mk [15] [] true) 0
      (List.Mem.tail _ (List.Mem.head _)) (LeafDepth.leaf _ rfl)
  · exact LeafDepth.child _ (.mk [9] [.mk [8] [] true, .mk [10] [] true] false) 1
      (List.Mem.head _)
      (LeafDepth.child _ (.mk [8] [] true) 0 (List.Mem.head _) (LeafDepth.leaf _ rfl))

/-- C6: the claim "every internal node has exactly keyCount+1 children"
FAILS on the code after just four insertions: with t = 2, inserting
8, 9, 10, 11 gives an internal root holding the keys `[9, 11]` but only TWO
children (`[8]` and `[10]`), because the key `11` was inserted directly
into the freshly split root without descending. -/
theorem c6_child_count_violation :
    buildRoot 2 [8, 9, 10, 11] =
      some (.mk [9, 11] [.mk [8] [] true, .mk [10] [] true] false) ∧
    (BTreeNode.mk ([9, 11] : List Int)
      [.mk [8] [] true, .mk [10] [] true] false).is_leaf = false ∧
    (BTreeNode.mk ([9, 11] : List Int)
      [.mk [8] [] true, .mk [10] [] true] false).n_children ≠
      (BTreeNode.mk ([9, 11] : List Int)
        [.mk [8] [] true, .mk [10] [] true] false).n_keys + 1 :=
  ⟨rfl, rfl, by decide⟩


/-- Exact behaviour of the Python list-indexing model: an error exactly when
`i < -len` or `i >= len`; for `0 <= i < len` the element at `i`; for
`-len <= i < 0` the element at `len + i` (counting from the end). -/
theorem pyGetE_spec (xs : List α) (i : Int) :
    ((i < -(xs.length : Int) ∨ (xs.length : Int) ≤ i) →
      pyGetE xs i = .error "list index out of range") ∧
    (0 ≤ i → i < (xs.length : Int) →
      ∃ x, pyGetE xs i = .ok x ∧ xs[i.toNat]? = some x) ∧
    (-(xs.length : Int) ≤ i → i < 0 →
      ∃ x, pyGetE xs i = .ok x ∧ xs[((xs.length : Int) + i).toNat]? = some x) := by
  refine ⟨?_, ?_, ?_⟩
  · rintro (hout | hout)
    · -- i < -len: the wrap-around value is clamped to 0, but the guard fires
      have hneg : i < 0 := by omega
      unfold pyGetE
      cases hsc : xs[pyIdx xs.length i]? with
      | none => rfl
      | some x =>
        simp only [hsc]
        rw [if_pos (by omega)]
    · -- i >= len: the read position is at or past the end
      have hnonneg : 0 ≤ i := by omega
      have hidx : pyIdx xs.length i = i.toNat := by
        unfold pyIdx
        rw [if_neg (by omega)]
      have hnone : xs[pyIdx xs.length i]? = none := by
        rw [hidx]
        exact List.getElem?_eq_none (by omega)
      unfold pyGetE
      rw [hnone]
  · intro h0 hlt
    have hidx : pyIdx xs.length i = i.toNat := by
      unfold pyIdx
      rw [if_neg (by omega)]
    have hbound : i.toNat < xs.length := by omega
    refine ⟨xs[i.toNat], ?_, List.getElem?_eq_getElem hbound⟩
    unfold pyGetE
    rw [hidx]
    simp only [List.getElem?_eq_getElem hbound]
    rw [if_neg (by omega)]
  · intro hge hneg
    have hidx : pyIdx xs.length i = ((xs.length : Int) + i).toNat := by
      unfold pyIdx
      rw [if_pos hneg]
    have hbound : ((xs.length : Int) + i).toNat < xs.length := by omega
    refine ⟨xs[((xs.length : Int) + i).toNat], ?_, List.getElem?_eq_getElem hbound⟩
    unfold pyGetE
    rw [hidx]
    simp only [List.getElem?_eq_getElem hbound]
    rw [if_neg (by omega)]

/-- C8 counterexample: the claim "get_key(i) and get_child(i) fail with an
out-of-range error whenever i < 0" is FALSE: on a node with one key,
`get_key(-1)` returns that key (Python negative indexing counts from the
end), and likewise `get_child(-1)` returns the last child. -/
theorem c8_negative_index_counterexample :
    get_keyE (.mk ([5] : List Int) [] true) (-1) = .ok 5 ∧
    get_childE (.mk ([5] : List Int) [.mk [1] [] true, .mk [9] [] true] false) (-1) =
      .ok (.mk [9] [] true) :=
  ⟨rfl, rfl⟩

/-- C8 amended: `get_key(i)` / `get_child(i)` fail with an out-of-range
error exactly when `i < -count` or `i >= count`; for `0 <= i < count` they
return the element at `i`, and for `-count <= i < 0` the element at
`count + i`, counting from the end. -/
theorem c8_index_error_amended (nd : BTreeNode α) (i : Int) :
    ((i < -(nd.n_keys : Int) ∨ (nd.n_keys : Int) ≤ i) →
      get_keyE nd i = .error "list index out of range") ∧
    (0 ≤ i → i < (nd.n_keys : Int) →
      ∃ x, get_keyE nd i = .ok x ∧ nd.keys[i.toNat]? = some x) ∧
    (-(nd.n_keys : Int) ≤ i → i < 0 →
      ∃ x, get_keyE nd i = .ok x ∧ nd.keys[((nd.n_keys : Int) + i).toNat]? = some x) ∧
    ((i < -(nd.n_children : Int) ∨ (nd.n_children : Int) ≤ i) →
      get_childE nd i = .error "list index out of range") ∧
    (0 ≤ i → i < (nd.n_children : Int) →
      ∃ x, get_childE nd i = .ok x ∧ nd.children[i.toNat]? = some x) ∧
    (-(nd.n_children : Int) ≤ i → i < 0 →
      ∃ x, get_childE nd i = .ok x ∧
        nd.children[((nd.n_children : Int) + i).toNat]? = some x) := by
  obtain ⟨hk1, hk2, hk3⟩ := pyGetE_spec nd.keys i
  obtain ⟨hc1, hc2, hc3⟩ := pyGetE_spec nd.children i
  exact ⟨hk1, hk2, hk3, hc1, hc2, hc3⟩

theorem c8_index_error_amended_witness :
    get_keyE (.mk ([5] : List Int) [] true) (2 : Int) = .error "list index out of range" ∧
    ∃ x, get_keyE (.mk ([5] : List Int) [] true) (-1) = .ok x ∧
      (BTreeNode.mk ([5] : List Int) [] true).keys[
        (((BTreeNode.mk ([5] : List Int) [] true).n_keys : Int) + -1).toNat]? = some x :=
  ⟨(c8_index_error_amended (.mk ([5] : List Int) [] true) 2).1 (by decide),
   (c8_index_error_amended (.mk ([5] : List Int) [] true) (-1)).2.2.1 (by decide) (by decide)⟩

/-- C10 counterexample: the claim "an out-of-range index is clamped so the
element is inserted at the nearest end" is FALSE for negative in-range
indices: `insert_key(5, -1)` on the key list `[1, 2]` places the new key
BEFORE the last element — `[1, 5, 2]` — not at either end of the list. -/
theorem c10_insert_not_at_end_counterexample :
    insert_keyE (.mk [some 1, some 2] [] true) (some 5) (-1) =
      .ok (.mk [some 1, some 5, some 2] [] true) ∧
    ([some 1, some 5, some 2] : List (Option Int)) ≠ [some 5, some 1, some 2] ∧
    ([some 1, some 5, some 2] : List (Option Int)) ≠ [some 1, some 2, some 5] :=
  ⟨rfl, by decide, by decide⟩

/-- C10 amended: `insert_key(key, i)` and `insert_child(child, i)` succeed
for every integer `i` and raise only when the key (resp. child) argument is
null.  The insertion position follows Python `list.insert`: `i >= count`
appends at the end, `i <= -count` inserts at the front, a negative in-range
`i` inserts at position `count + i` (counting from the end — not
necessarily at an end of the sequence), and `0 <= i <= count` inserts at
`i`. -/
theorem c10_insert_clamping_amended (nd : BTreeNode (Option Int)) (key : Option Int)
    (child : Option (BTreeNode (Option Int))) (i : Int) :
    (∀ k, key = some k → insert_keyE nd key i =
      .ok (.mk (listIns (pyInsertIdx nd.n_keys i) key nd.keys) nd.children nd.is_leaf)) ∧
    ((∃ e, insert_keyE nd key i = .error e) ↔ key = none) ∧
    (∀ c, child = some c → insert_childE nd child i =
      .ok (.mk nd.keys (listIns (pyInsertIdx nd.n_children i) c nd.children) nd.is_leaf)) ∧
    ((∃ e, insert_childE nd child i = .error e) ↔ child = none) ∧
    ((nd.n_keys : Int) ≤ i → pyInsertIdx nd.n_keys i = nd.n_keys) ∧
    (i ≤ -(nd.n_keys : Int) → pyInsertIdx nd.n_keys i = 0) ∧
    (-(nd.n_keys : Int) ≤ i → i < 0 →
      pyInsertIdx nd.n_keys i = ((nd.n_keys : Int) + i).toNat) ∧
    (0 ≤ i → i ≤ (nd.n_keys : Int) → pyInsertIdx nd.n_keys i = i.toNat) := by
  refine ⟨?_, ?_, ?_, ?_, ?_, ?_, ?_, ?_⟩
  · rintro k rfl
    rfl
  · constructor
    · rintro ⟨e, he⟩
      cases hkey : key with
      | none => rfl
      | some k =>
        rw [hkey] at he
        simp only [insert_keyE] at he
        cases he
    · rintro rfl
      exact ⟨"TypeError: key parameter must not be None", rfl⟩
  · rintro c rfl
    rfl
  · constructor
    · rintro ⟨e, he⟩
      cases hch : child with
      | none => rfl
      | some c =>
        rw [hch] at he
        simp only [insert_childE] at he
        cases he
    · rintro rfl
      exact ⟨"TypeError: child parameter must not be None", rfl⟩
  · intro hge
    unfold pyInsertIdx
    rw [if_neg (by omega)]
    omega
  · intro hle
    unfold pyInsertIdx
    split <;> omega
  · intro hge hlt
    unfold pyInsertIdx
    rw [if_pos hlt]
  · intro h0 hle
    unfold pyInsertIdx
    rw [if_neg (by omega)]
    omega

theorem c10_insert_clamping_amended_witness :
    insert_keyE (.mk [some 1, some 2] [] true) (some 5) (-1) =
      .ok (.mk (listIns (pyInsertIdx
        (BTreeNode.mk [some 1, some 2] [] true : BTreeNode (Option Int)).n_keys (-1))
        (some 5) (BTreeNode.mk [some 1, some 2] [] true :
          BTreeNode (Option Int)).keys)
        (BTreeNode.mk [some 1, some 2] [] true : BTreeNode (Option Int)).children
        (BTreeNode.mk [some 1, some 2] [] true : BTreeNode (Option Int)).is_leaf) ∧
    pyInsertIdx (BTreeNode.mk [some 1, some 2] [] true :
      BTreeNode (Option Int)).n_keys (-1) =
      (((BTreeNode.mk [some 1, some 2] [] true : BTreeNode (Option Int)).n_keys : Int) +
        -1).toNat :=
  ⟨(c10_insert_clamping_amended (.mk [some 1, some 2] [] true) (some 5) none (-1)).1
      5 rfl,
   (c10_insert_clamping_amended (.mk [some 1, some 2] [] true) (some 5) none
      (-1)).2.2.2.2.2.2.1 (by decide) (by decide)⟩
